import Mathlib

/-!
Verification of the layer ingestion and state-management subsystem of the
Noise-Map repository (source: scripts/layers.js).

The JavaScript code is shallowly embedded:

* JS numbers are modelled by `JsNum`: either a finite rational or the
  non-finite sentinel (NaN / Infinity), so that the `Number.isFinite`
  checks of the source are explicit.
* JS objects used as string-keyed dictionaries (the two registry
  partitions, the grouping result, feature property bags) are modelled as
  association lists in insertion order, with the `JsObj` operations
  mirroring JS property read, assignment (an existing key keeps its
  position, a new key is appended) and the `delete` statement.  The ids
  produced by the code are never integer-like strings, so the JS `for-in`
  enumeration order is insertion order, as in the model.
* External collaborators (PapaParse plus `parseFloat`, proj4, the
  GeoJSON-to-layer builder, the guess-label-property service) are injected
  as environment records, exactly as the specification treats them.
* Renderable layer handles are opaque tokens; the DOM work of the panel is
  outside the model, but the decisions the panel code makes about the data
  (grouping, the roads exclusion filter) are embedded.
-/

namespace NoiseMap

/-- A JavaScript number: either a finite value (modelled as a rational) or
the non-finite sentinel covering NaN and the infinities. -/
inductive JsNum where
  | fin (q : ℚ)
  | nonfin
deriving DecidableEq, Repr

/-- The `Number.isFinite` test. -/
def JsNum.isFinite : JsNum → Bool
  | .fin _ => true
  | .nonfin => false

/-- Feature geometry: a GeoJSON point (coordinates `[lon, lat]`) or an
opaque non-point geometry. -/
inductive Geometry where
  | point (lon lat : JsNum)
  | nonPoint (tag : Nat)
deriving DecidableEq, Repr

/-- A standard feature: a geometry plus a property bag (an object literal,
modelled as an association list in key insertion order). -/
structure Feature where
  geometry : Geometry
  props : List (String × String)
deriving DecidableEq, Repr

/-- An opaque renderable layer handle (Leaflet layer object). -/
structure RenderLayer where
  lid : Nat
deriving DecidableEq, Repr

/-- The `meta` record of a registry entry.  Repo entries populate
`mtype`/`url`, uploaded entries populate `source`/`fileName`; absent JS
fields are `none`. -/
structure EntryMeta where
  mtype : Option String := none
  url : Option String := none
  source : Option String := none
  fileName : Option String := none
  labelField : Option String := none
deriving DecidableEq, Repr

/-- One registry entry:
`{ id, name, layer, features, meta, active, opacity }` as stored in
`window.UserLayerManager.uploaded` / `.repo`.  `features` is an `Option`
because `getAllActiveFeatures` explicitly guards with
`Array.isArray(d.features)`; `layer` is an `Option` because the
roads-forcing code guards with `roadsObj?.layer`. -/
structure LayerEntry where
  id : String
  name : String
  layer : Option RenderLayer
  features : Option (List Feature)
  active : Bool
  opacity : ℚ
  meta : EntryMeta
deriving DecidableEq, Repr

namespace JsObj

/-- JS property read `m[k]`: the value at the key, `none` when absent. -/
def get {α : Type} : List (String × α) → String → Option α
  | [], _ => none
  | p :: rest, k => if p.1 == k then some p.2 else get rest k

/-- JS property assignment `m[k] = v`: an existing key keeps its position
and gets the new value; a new key is appended. -/
def set {α : Type} : List (String × α) → String → α → List (String × α)
  | [], k, v => [(k, v)]
  | p :: rest, k, v => if p.1 == k then (k, v) :: rest else p :: set rest k v

/-- JS `delete m[k]`. -/
def del {α : Type} (m : List (String × α)) (k : String) : List (String × α) :=
  m.filter (fun p => !(p.1 == k))

/-- In-place field mutation `if (m[k]) m[k].field = ...`, a no-op when the
key is absent. -/
def modify {α : Type} (m : List (String × α)) (k : String) (f : α → α) :
    List (String × α) :=
  m.map (fun p => if p.1 == k then (p.1, f p.2) else p)

/-- The keys of the object, in enumeration order. -/
def keys {α : Type} (m : List (String × α)) : List String :=
  m.map Prod.fst

end JsObj

/-- The two partitions of `window.UserLayerManager`. -/
inductive Partition where
  | uploaded
  | repo
deriving DecidableEq, Repr

/-- The registry `window.UserLayerManager`: two string-keyed partitions of
layer entries. -/
structure Registry where
  uploaded : List (String × LayerEntry)
  repo : List (String × LayerEntry)
deriving DecidableEq, Repr

/-- Loop body of `getAllActiveFeatures`:
`if (d?.active && Array.isArray(d.features)) out.push(...d.features)`. -/
def pushActive (out : List Feature) (d : LayerEntry) : List Feature :=
  if d.active then
    match d.features with
    | some fs => out ++ fs
    | none => out
  else out

/-- The query `UserLayerManager.getAllActiveFeatures()`: walk the uploaded partition,
then the repo partition, pushing the features of every active entry whose
`features` is an array. -/
def Registry.getAllActiveFeatures (r : Registry) : List Feature :=
  let out := r.uploaded.foldl (fun out p => pushActive out p.2) []
  r.repo.foldl (fun out p => pushActive out p.2) out

/-- Every feature of every entry of an association list, in order. -/
def featsOf (m : List (String × LayerEntry)) : List Feature :=
  (m.map (fun p => p.2.features.getD [])).flatten

/-- Every feature held by any entry of the registry, active or not (used
to reason about what the aggregate query can ever return). -/
def Registry.allFeatures (r : Registry) : List Feature :=
  ((r.uploaded ++ r.repo).map (fun p => p.2.features.getD [])).flatten

/-- The registry mutations the panel code performs: committing an entry
(upload flow / preloader), removing an uploaded entry (the remove button),
and the toggle / opacity-slider handlers. -/
inductive RegOp where
  | put (part : Partition) (id : String) (e : LayerEntry)
  | removeUploaded (id : String)
  | setActive (part : Partition) (id : String) (b : Bool)
  | setOpacity (part : Partition) (id : String) (v : ℚ)

/-- Apply one registry mutation, as the corresponding handler does. -/
def Registry.applyOp (r : Registry) : RegOp → Registry
  | .put .uploaded id e => { r with uploaded := JsObj.set r.uploaded id e }
  | .put .repo id e => { r with repo := JsObj.set r.repo id e }
  | .removeUploaded id => { r with uploaded := JsObj.del r.uploaded id }
  | .setActive .uploaded id b =>
      { r with uploaded := JsObj.modify r.uploaded id (fun e => { e with active := b }) }
  | .setActive .repo id b =>
      { r with repo := JsObj.modify r.repo id (fun e => { e with active := b }) }
  | .setOpacity .uploaded id v =>
      { r with uploaded := JsObj.modify r.uploaded id (fun e => { e with opacity := v }) }
  | .setOpacity .repo id v =>
      { r with repo := JsObj.modify r.repo id (fun e => { e with opacity := v }) }

/-- Run a sequence of registry mutations. -/
def Registry.runOps (r : Registry) (ops : List RegOp) : Registry :=
  ops.foldl Registry.applyOp r

/-- The features a mutation introduces into the store: only `put` carries
features.  In the JS code the features of a committed entry are freshly
constructed objects, which is reflected by the freshness hypotheses of the
theorems using this definition. -/
def RegOp.newFeatures : RegOp → List Feature
  | .put _ _ e => e.features.getD []
  | _ => []

/-- The external services the CSV path consumes: `proj4` (possibly absent,
`typeof proj4 === "undefined"`; when present it takes the two projection
strings and the coordinate pair and either throws or returns `[lon, lat]`)
and the numeric parse `parseFloat` composed with nothing (its result is a
JS number, finite or not). -/
structure CsvEnv where
  proj4 : Option (String → String → JsNum → JsNum → Except Unit (JsNum × JsNum))
  parseFloat : String → JsNum

/-- The source projection string of `utmToLatLon32620`. -/
def utm20 : String := "+proj=utm +zone=20 +datum=WGS84 +units=m +no_defs"

/-- The target projection string of `utmToLatLon32620`. -/
def wgs84 : String := "+proj=longlat +datum=WGS84 +no_defs"

/-- The `{lat, lon}` record returned by the coordinate normalizer. -/
structure LatLon where
  lat : JsNum
  lon : JsNum
deriving DecidableEq, Repr

/-- The normalizer `utmToLatLon32620(easting, northing)`: `null` when proj4 is absent;
otherwise call proj4, returning `null` when it throws or when the produced
latitude or longitude is not finite, and `{lat, lon}` otherwise.  The
embedding is a total function into `Option`, so the "never throws" part of
the contract is carried by the type. -/
def utmToLatLon32620 (env : CsvEnv) (easting northing : JsNum) : Option LatLon :=
  match env.proj4 with
  | none => none
  | some p =>
      match p utm20 wgs84 easting northing with
      | .error _ => none
      | .ok (lon, lat) =>
          if !lat.isFinite || !lon.isFinite then none
          else some { lat := lat, lon := lon }

/-- The call `parseFloat(r.Easting)` where the field may be absent:
`parseFloat(undefined)` is NaN. -/
def parseFloatOpt (env : CsvEnv) : Option String → JsNum
  | none => JsNum.nonfin
  | some s => env.parseFloat s

/-- Body of the row loop of `handleCsvUpload`: parse `Easting`/`Northing`,
drop the row if either is not finite, drop it if the normalizer returns
null, otherwise build the point feature
`{ geometry: Point [lon, lat], properties: { ...r, __sourceFile, __assumedCRS } }`.
The Leaflet marker and popup built alongside are rendering surface and stay
outside the model. -/
def csvRowFeature (env : CsvEnv) (fileName : String)
    (r : List (String × String)) : Option Feature :=
  let e := parseFloatOpt env (JsObj.get r "Easting")
  let n := parseFloatOpt env (JsObj.get r "Northing")
  if !e.isFinite || !n.isFinite then none
  else
    match utmToLatLon32620 env e n with
    | none => none
    | some ll =>
        some { geometry := Geometry.point ll.lon ll.lat,
               props := JsObj.set (JsObj.set r "__sourceFile" fileName)
                          "__assumedCRS" "EPSG:32620" }

/-- The feature-list part of `handleCsvUpload(file)`: fold the parsed rows,
accumulating the emitted features in order (the returned marker group is an
opaque render handle and is not modelled). -/
def handleCsvUpload (env : CsvEnv) (fileName : String)
    (rows : List (List (String × String))) : List Feature :=
  rows.foldl (fun features r =>
    match csvRowFeature env fileName r with
    | none => features
    | some f => features ++ [f]) []

/-- A repo layer configuration from `window.GEOJSON_LAYERS_CONFIG`.
`type` and `labelField` are `Option` because the grouping and label-field
code test them for JS truthiness. -/
structure LayerConfig where
  id : String
  name : String
  type : Option String
  url : String
  labelField : Option String
  metaUrl : Option String
deriving DecidableEq, Repr

/-- JS truthiness of an optional string field: absent, null and the empty
string are falsy. -/
def truthyStr : Option String → Bool
  | none => false
  | some s => !(s == "")

/-- The resolver `computeLabelField(cfg, features)`.  The guess-label-property service
(`window.LayerStyle?.guessLabelProperty`) is injected; its JS return value
is an arbitrary value, modelled as `Option String`. -/
def computeLabelField (guessSvc : Option (List Feature → Option String))
    (cfg : LayerConfig) (features : List Feature) : Option String :=
  if features.isEmpty then none
  else if truthyStr cfg.labelField then cfg.labelField
  else if cfg.type == some "municipality" then some "NAME_1"
  else if cfg.type == some "zone" then some "zone"
  else
    match guessSvc with
    | some g => g features
    | none => none

/-- The key `cfg.type || "other"`: the bucket key of a config. -/
def typeKey (cfg : LayerConfig) : String :=
  match cfg.type with
  | none => "other"
  | some s => if s == "" then "other" else s

/-- Loop body of `groupRepoLayers`:
`const t = cfg.type || "other"; if (!groups[t]) groups[t] = []; groups[t].push(cfg)`. -/
def groupStep (groups : List (String × List LayerConfig)) (cfg : LayerConfig) :
    List (String × List LayerConfig) :=
  let t := typeKey cfg
  JsObj.set groups t ((JsObj.get groups t).getD [] ++ [cfg])

/-- The grouping `groupRepoLayers(config)`: fold the configs into a string-keyed object
of buckets, pushing each config onto the bucket of its type key. -/
def groupRepoLayers (config : List LayerConfig) :
    List (String × List LayerConfig) :=
  config.foldl groupStep []

/-- A presentation group from `window.REPO_LAYER_GROUPS`. -/
structure GroupDef where
  id : String
  title : String
deriving DecidableEq, Repr

/-- Loop body of the panel rendering over `groupOrder`: take the bucket of
the group id (skip when absent or empty: `if (!list || !list.length)`),
drop every config of type `"roads"`, and skip the group when nothing
remains. -/
def panelStep (repoGroups : List (String × List LayerConfig))
    (acc : List (GroupDef × List LayerConfig)) (g : GroupDef) :
    List (GroupDef × List LayerConfig) :=
  match JsObj.get repoGroups g.id with
  | none => acc
  | some list =>
      if list.isEmpty then acc
      else
        let visibleList := list.filter (fun cfg => !(cfg.type == some "roads"))
        if visibleList.isEmpty then acc
        else acc ++ [(g, visibleList)]

/-- The grouped presentation lists the panel renders, one entry per group
heading actually shown, each with the config rows rendered under it. -/
def panelLists (config : List LayerConfig) (groupOrder : List GroupDef) :
    List (GroupDef × List LayerConfig) :=
  groupOrder.foldl (panelStep (groupRepoLayers config)) []

/-- The result of `fetch(cfg.url)` + `resp.json()` +
`LayerStyle.createLayerFromGeoJson(cfg, data)` when the whole `try` block
succeeds: the built layer handle, `built.features` (`none` when falsy) and
`data.features` (`none` when absent). -/
structure BuildResult where
  layer : RenderLayer
  builtFeatures : Option (List Feature)
  dataFeatures : Option (List Feature)

/-- The environment of the preloader: the combined fetch/parse/build step
for a config (`none` models a throw anywhere inside the `try`) and the
guess-label-property service. -/
structure PreloadEnv where
  fetchBuild : LayerConfig → Option BuildResult
  guessLabelProperty : Option (List Feature → Option String)

/-- The observable effects of one preloader run: the network fetch issued
for a config, the `console.warn` on a per-config failure, and the
`layers:repoPreloaded` custom event. -/
inductive PreloadEvent where
  | fetchCalled (url : String)
  | warnFailed (name : String)
  | repoPreloaded
deriving DecidableEq, Repr

/-- The state the preloader reads and writes: the repo partition of the
registry, the set of layer handles attached to the map, and the emitted
effect trace. -/
structure PreloadState where
  repo : List (String × LayerEntry)
  mapLayers : List Nat
  events : List PreloadEvent

/-- The entry committed for a successfully fetched config:
`features` is `built.features || (data.features || [])`, `active` starts
false, opacity is 0.6 for roads and 0.7 otherwise. -/
def mkRepoEntry (guessSvc : Option (List Feature → Option String))
    (cfg : LayerConfig) (built : BuildResult) : LayerEntry :=
  let feats :=
    match built.builtFeatures with
    | some fs => fs
    | none => built.dataFeatures.getD []
  { id := cfg.id
    name := cfg.name
    layer := some built.layer
    features := some feats
    active := false
    opacity := if cfg.type == some "roads" then 6/10 else 7/10
    meta := { mtype := cfg.type, url := some cfg.url,
              labelField := computeLabelField guessSvc cfg feats } }

/-- One iteration of the preload loop: skip when an entry with this id is
already in the repo partition; otherwise attempt the fetch/build (the fetch
is issued either way), and on success commit the entry.  On failure only
the warning is logged.  (The `zoomend` handler registration for layers
exposing `updateZoomStyles` is a map-surface side channel outside the
model.) -/
def preloadStep (env : PreloadEnv) (s : PreloadState) (cfg : LayerConfig) :
    PreloadState :=
  if (JsObj.get s.repo cfg.id).isSome then s
  else
    match env.fetchBuild cfg with
    | none =>
        { s with events := s.events ++
            [.fetchCalled cfg.url, .warnFailed cfg.name] }
    | some built =>
        { s with
            repo := JsObj.set s.repo cfg.id
              (mkRepoEntry env.guessLabelProperty cfg built)
            events := s.events ++ [.fetchCalled cfg.url] }

/-- The `for (const cfg of registry)` loop of `preloadRepoLayers`. -/
def preloadLoop (env : PreloadEnv) : PreloadState → List LayerConfig → PreloadState
  | s, [] => s
  | s, cfg :: rest => preloadLoop env (preloadStep env s cfg) rest

/-- The roads-forcing tail of `preloadRepoLayers`: look up the fixed id
`"major_roads"`; when the entry exists and has a layer handle, set
`active = true` and attach the handle to the map if not already attached.
(The `setActive`/`setOpacity` side-channel calls on the handle are visual
and outside the model.) -/
def forceRoadsOn (s : PreloadState) : PreloadState :=
  match JsObj.get s.repo "major_roads" with
  | none => s
  | some roadsObj =>
      match roadsObj.layer with
      | none => s
      | some l =>
          let s1 := { s with
            repo := JsObj.set s.repo "major_roads" { roadsObj with active := true } }
          if s1.mapLayers.contains l.lid then s1
          else { s1 with mapLayers := s1.mapLayers ++ [l.lid] }

/-- The state right after the per-config loop has finished and the
`layers:repoPreloaded` custom event has been dispatched. -/
def preloadReadyState (env : PreloadEnv) (registry : List LayerConfig)
    (s : PreloadState) : PreloadState :=
  { preloadLoop env s registry with
    events := (preloadLoop env s registry).events ++ [.repoPreloaded] }

/-- The preloader `preloadRepoLayers()`: run the per-config loop, dispatch the
`layers:repoPreloaded` event, then force the roads layer on. -/
def preloadRepoLayers (env : PreloadEnv) (registry : List LayerConfig)
    (s : PreloadState) : PreloadState :=
  forceRoadsOn (preloadReadyState env registry s)

/-- A config set is settled for a repo store when every config either
already has an entry under its id or has a failing fetch; a preload run
over a settled store leaves the store unchanged. -/
def Settled (env : PreloadEnv) (repo : List (String × LayerEntry))
    (cfgs : List LayerConfig) : Prop :=
  ∀ cfg ∈ cfgs, (JsObj.get repo cfg.id).isSome = true ∨ env.fetchBuild cfg = none

/-! Concrete inputs used by the witness and counterexample theorems. -/

/-- The startup state: both stores empty, nothing attached, no events. -/
def emptyPState : PreloadState := { repo := [], mapLayers := [], events := [] }

/-- A config with an explicit `labelField` (for the label-field claims). -/
def cxLabelCfg : LayerConfig :=
  { id := "m1", name := "Municipalities", type := some "municipality",
    url := "data/muni.geojson", labelField := some "CUSTOM", metaUrl := none }

/-- A nonempty feature set for the label-field witness. -/
def w2Feat : Feature :=
  { geometry := Geometry.nonPoint 0, props := [("NAME_1", "A")] }

/-- A roads-type config whose id is not the reserved `"major_roads"`. -/
def cxRoadsCfg : LayerConfig :=
  { id := "secondary_roads", name := "Secondary Roads", type := some "roads",
    url := "data/roads2.geojson", labelField := none, metaUrl := none }

/-- An environment whose fetch/build succeeds for every config. -/
def cxPreloadEnv : PreloadEnv :=
  { fetchBuild := fun _ =>
      some { layer := { lid := 1 }, builtFeatures := none, dataFeatures := none },
    guessLabelProperty := none }

/-- The reserved roads config. -/
def w3Cfg : LayerConfig :=
  { id := "major_roads", name := "Major Roads", type := some "roads",
    url := "data/roads.geojson", labelField := none, metaUrl := none }

/-- An environment whose fetch/build succeeds with layer handle 7. -/
def w3Env : PreloadEnv :=
  { fetchBuild := fun _ =>
      some { layer := { lid := 7 }, builtFeatures := none, dataFeatures := none },
    guessLabelProperty := none }

/-- The entry stored under `"major_roads"` after preloading `w3Cfg` through
`w3Env` from the startup state (active already forced on). -/
def w3Entry : LayerEntry :=
  { id := "major_roads", name := "Major Roads", layer := some { lid := 7 },
    features := some [], active := true, opacity := 6/10,
    meta := { mtype := some "roads", url := some "data/roads.geojson",
              labelField := none } }

/-- A feature held by the uploaded entry that gets removed. -/
def w4Feat1 : Feature := { geometry := Geometry.nonPoint 1, props := [] }

/-- A distinct feature introduced by a later upload. -/
def w4Feat2 : Feature := { geometry := Geometry.nonPoint 2, props := [] }

/-- The uploaded entry that gets removed (active at removal time). -/
def w4Entry1 : LayerEntry :=
  { id := "upload_a", name := "a.csv", layer := some { lid := 1 },
    features := some [w4Feat1], active := true, opacity := 7/10,
    meta := { source := some "upload", fileName := some "a.csv" } }

/-- The entry committed by a later upload. -/
def w4Entry2 : LayerEntry :=
  { id := "upload_b", name := "b.csv", layer := some { lid := 2 },
    features := some [w4Feat2], active := true, opacity := 7/10,
    meta := { source := some "upload", fileName := some "b.csv" } }

/-- A registry holding one active uploaded entry. -/
def w4Reg : Registry := { uploaded := [("upload_a", w4Entry1)], repo := [] }

/-- Operations performed after the removal: a fresh upload, then its
activation. -/
def w4Ops : List RegOp :=
  [.put .uploaded "upload_b" w4Entry2, .setActive .uploaded "upload_b" true]

/-- A zone config for the idempotency witness. -/
def w5CfgA : LayerConfig :=
  { id := "zones", name := "Zones", type := some "zone",
    url := "data/zones.geojson", labelField := none, metaUrl := none }

/-- An environment that succeeds only for the `"zones"` config. -/
def w5Env : PreloadEnv :=
  { fetchBuild := fun cfg =>
      if cfg.id == "zones"
      then some { layer := { lid := 3 }, builtFeatures := none,
                  dataFeatures := none }
      else none,
    guessLabelProperty := none }

/-- A CSV environment: proj4 present and total, the parse recognising the
two coordinate strings of `w6Row`. -/
def w6Env : CsvEnv :=
  { proj4 := some (fun _ _ e n => .ok (e, n)),
    parseFloat := fun s =>
      if s == "480000" then .fin 480000
      else if s == "1800000" then .fin 1800000
      else .nonfin }

/-- A well-formed CSV row. -/
def w6Row : List (String × String) :=
  [("Easting", "480000"), ("Northing", "1800000"), ("Name", "Site A")]

/-- A CSV environment with proj4 absent. -/
def w7Env : CsvEnv := { proj4 := none, parseFloat := fun _ => .nonfin }

/-- A config whose fetch fails. -/
def w8CfgA : LayerConfig :=
  { id := "bad", name := "Bad Layer", type := some "zone",
    url := "data/bad.geojson", labelField := none, metaUrl := none }

/-- A config whose fetch succeeds. -/
def w8CfgB : LayerConfig :=
  { id := "good", name := "Good Layer", type := some "zone",
    url := "data/good.geojson", labelField := none, metaUrl := none }

/-- An environment failing for `"bad"` and succeeding for `"good"`. -/
def w8Env : PreloadEnv :=
  { fetchBuild := fun cfg =>
      if cfg.id == "good"
      then some { layer := { lid := 4 }, builtFeatures := none,
                  dataFeatures := none }
      else none,
    guessLabelProperty := none }

/-- A config with no `type` field. -/
def w10Cfg : LayerConfig :=
  { id := "misc", name := "Misc", type := none, url := "data/misc.geojson",
    labelField := none, metaUrl := none }

/-! Generic lemmas about the JS-object model. -/

theorem JsObj.get_set_self {α : Type} (m : List (String × α)) (k : String)
    (v : α) : JsObj.get (JsObj.set m k v) k = some v := by
  induction m with
  | nil => simp [JsObj.get, JsObj.set]
  | cons p rest ih =>
      cases h : p.1 == k with
      | true => simp [JsObj.set, h, JsObj.get]
      | false => simp [JsObj.set, h, JsObj.get, ih]

theorem JsObj.get_set_ne {α : Type} (m : List (String × α)) (k k2 : String)
    (v : α) (h : ¬ k2 = k) :
    JsObj.get (JsObj.set m k v) k2 = JsObj.get m k2 := by
  induction m with
  | nil =>
      simp [JsObj.get, JsObj.set]
      intro hk
      exact absurd hk.symm h
  | cons p rest ih =>
      cases hp : p.1 == k with
      | true =>
          have hpk : p.1 = k := by simpa using hp
          have hk2 : ¬ k == k2 := by
            simp only [beq_iff_eq]
            intro hkk
            exact h hkk.symm
          have hk2p : ¬ p.1 == k2 := by
            rw [hpk]
            exact hk2
          simp [JsObj.set, hp, JsObj.get, hk2, hk2p]
      | false => simp [JsObj.set, hp, JsObj.get, ih]

theorem JsObj.get_del_self {α : Type} (m : List (String × α)) (k : String) :
    JsObj.get (JsObj.del m k) k = none := by
  induction m with
  | nil => simp [JsObj.get, JsObj.del]
  | cons p rest ih =>
      cases hp : p.1 == k with
      | true => simpa [JsObj.del, List.filter_cons, hp] using ih
      | false =>
          simpa [JsObj.del, List.filter_cons, hp, JsObj.get] using ih

theorem JsObj.get_none_iff {α : Type} (m : List (String × α)) (k : String) :
    JsObj.get m k = none ↔ k ∉ JsObj.keys m := by
  induction m with
  | nil => simp [JsObj.get, JsObj.keys]
  | cons p rest ih =>
      cases hp : p.1 == k with
      | true =>
          have hpk : p.1 = k := by simpa using hp
          simp [JsObj.get, hp, JsObj.keys, hpk]
      | false =>
          have hkp : ¬ k = p.1 := by
            intro hk
            simp [hk] at hp
          simp [JsObj.get, hp, JsObj.keys, ih, hkp]

theorem JsObj.keys_set_present {α : Type} (m : List (String × α))
    (k : String) (v : α) (h : (JsObj.get m k).isSome = true) :
    JsObj.keys (JsObj.set m k v) = JsObj.keys m := by
  induction m with
  | nil => simp [JsObj.get] at h
  | cons p rest ih =>
      cases hp : p.1 == k with
      | true =>
          have hpk : p.1 = k := by simpa using hp
          simp [JsObj.set, hp, JsObj.keys, hpk]
      | false =>
          simp only [JsObj.get, hp, Bool.false_eq_true, if_false] at h
          simp [JsObj.set, hp, JsObj.keys, List.map_cons]
          exact congrArg (fun l => l) (by simpa [JsObj.keys] using ih h)

theorem JsObj.keys_set_absent {α : Type} (m : List (String × α))
    (k : String) (v : α) (h : JsObj.get m k = none) :
    JsObj.keys (JsObj.set m k v) = JsObj.keys m ++ [k] := by
  induction m with
  | nil => simp [JsObj.set, JsObj.keys]
  | cons p rest ih =>
      cases hp : p.1 == k with
      | true => simp [JsObj.get, hp] at h
      | false =>
          simp only [JsObj.get, hp, Bool.false_eq_true, if_false] at h
          simp [JsObj.set, hp, JsObj.keys, List.map_cons] at ih ⊢
          simpa [JsObj.keys] using ih h

theorem JsObj.nodup_keys_set {α : Type} (m : List (String × α)) (k : String)
    (v : α) (h : (JsObj.keys m).Nodup) :
    (JsObj.keys (JsObj.set m k v)).Nodup := by
  cases hg : JsObj.get m k with
  | some w =>
      rw [JsObj.keys_set_present m k v (by simp [hg])]
      exact h
  | none =>
      rw [JsObj.keys_set_absent m k v hg]
      have hk : k ∉ JsObj.keys m := (JsObj.get_none_iff m k).mp hg
      simp [List.nodup_append, h, hk]

theorem JsObj.set_eq_of_get {α : Type} (m : List (String × α)) (k : String)
    (v : α) (h : JsObj.get m k = some v) : JsObj.set m k v = m := by
  induction m with
  | nil => simp [JsObj.get] at h
  | cons p rest ih =>
      cases hp : p.1 == k with
      | true =>
          have hpk : p.1 = k := by simpa using hp
          simp only [JsObj.get, hp, if_true] at h
          obtain rfl : p.2 = v := by simpa using h
          simp [JsObj.set, hp, hpk.symm]
      | false =>
          simp only [JsObj.get, hp, Bool.false_eq_true, if_false] at h
          simp [JsObj.set, hp, ih h]

theorem JsObj.keys_set_sub {α : Type} (m : List (String × α)) (k0 : String)
    (v : α) (k : String) (h : k ∈ JsObj.keys (JsObj.set m k0 v)) :
    k ∈ JsObj.keys m ∨ k = k0 := by
  cases hg : JsObj.get m k0 with
  | some w =>
      rw [JsObj.keys_set_present m k0 v (by simp [hg])] at h
      exact Or.inl h
  | none =>
      rw [JsObj.keys_set_absent m k0 v hg] at h
      simpa using h

/-! The aggregate query (claim C1) and feature containment (claim C4). -/

theorem foldl_pushActive (l : List (String × LayerEntry))
    (out : List Feature) :
    l.foldl (fun o p => pushActive o p.2) out
      = out ++ ((l.filter (fun p => p.2.active && p.2.features.isSome)).map
          (fun p => p.2.features.getD [])).flatten := by
  induction l generalizing out with
  | nil => simp
  | cons hd tl ih =>
      simp only [List.foldl_cons, List.filter_cons]
      rw [ih]
      cases hfa : hd.2.features with
      | none => cases ha : hd.2.active <;> simp [pushActive, hfa, ha]
      | some fs => cases ha : hd.2.active <;> simp [pushActive, hfa, ha]

/-- Claim C1: `getAllActiveFeatures()` returns exactly the concatenation of
the `features` lists of the entries whose `active` flag is true and whose
`features` is an array, taking the uploaded partition first and then the
repo partition, each in insertion order; entries with a falsy `active` flag
or a non-array `features` contribute nothing. -/
theorem claim_C1 (r : Registry) :
    r.getAllActiveFeatures =
      (((r.uploaded ++ r.repo).filter
          (fun p => p.2.active && p.2.features.isSome)).map
        (fun p => p.2.features.getD [])).flatten := by
  unfold Registry.getAllActiveFeatures
  rw [foldl_pushActive, foldl_pushActive, List.filter_append, List.map_append,
    List.flatten_append]
  simp

theorem featsOf_cons (p : String × LayerEntry)
    (rest : List (String × LayerEntry)) :
    featsOf (p :: rest) = p.2.features.getD [] ++ featsOf rest := by
  simp [featsOf]

theorem allFeatures_eq (r : Registry) :
    r.allFeatures = featsOf r.uploaded ++ featsOf r.repo := by
  unfold Registry.allFeatures featsOf
  rw [List.map_append, List.flatten_append]

theorem getAllActive_sub_allFeatures (r : Registry) (f : Feature)
    (h : f ∈ r.getAllActiveFeatures) : f ∈ r.allFeatures := by
  unfold Registry.getAllActiveFeatures at h
  rw [foldl_pushActive, foldl_pushActive] at h
  unfold Registry.allFeatures
  simp only [List.nil_append, List.mem_append, List.mem_flatten,
    List.mem_map, List.mem_filter] at h ⊢
  rcases h with ⟨l, ⟨p, ⟨hp, _⟩, hl⟩, hf⟩ | ⟨l, ⟨p, ⟨hp, _⟩, hl⟩, hf⟩
  · exact ⟨l, ⟨p, Or.inl hp, hl⟩, hf⟩
  · exact ⟨l, ⟨p, Or.inr hp, hl⟩, hf⟩

theorem featsOf_set_sub (m : List (String × LayerEntry)) (k : String)
    (e : LayerEntry) (f : Feature) (h : f ∈ featsOf (JsObj.set m k e)) :
    f ∈ featsOf m ∨ f ∈ e.features.getD [] := by
  induction m with
  | nil =>
      right
      simpa [JsObj.set, featsOf] using h
  | cons p rest ih =>
      cases hp : p.1 == k with
      | true =>
          simp only [JsObj.set, hp, if_true] at h
          rw [featsOf_cons] at h
          rcases List.mem_append.mp h with h1 | h1
          · exact Or.inr h1
          · exact Or.inl (by rw [featsOf_cons]; exact List.mem_append_right _ h1)
      | false =>
          simp only [JsObj.set, hp, Bool.false_eq_true, if_false] at h
          rw [featsOf_cons] at h
          rcases List.mem_append.mp h with h1 | h1
          · exact Or.inl (by rw [featsOf_cons]; exact List.mem_append_left _ h1)
          · rcases ih h1 with h2 | h2
            · exact Or.inl (by rw [featsOf_cons]; exact List.mem_append_right _ h2)
            · exact Or.inr h2

theorem featsOf_del_sub (m : List (String × LayerEntry)) (k : String)
    (f : Feature) (h : f ∈ featsOf (JsObj.del m k)) : f ∈ featsOf m := by
  induction m with
  | nil =>
      simp [JsObj.del, featsOf] at h
  | cons p rest ih =>
      rw [featsOf_cons]
      unfold JsObj.del at h
      rw [List.filter_cons] at h
      cases hp : p.1 == k with
      | true =>
          simp only [hp] at h
          exact List.mem_append_right _ (ih h)
      | false =>
          simp only [hp] at h
          rw [show List.filter (fun p => !(p.1 == k)) rest = JsObj.del rest k
                from rfl] at h
          simp only [Bool.not_false, if_true] at h
          rw [featsOf_cons] at h
          rcases List.mem_append.mp h with h1 | h1
          · exact List.mem_append_left _ h1
          · exact List.mem_append_right _ (ih h1)

theorem featsOf_modify (m : List (String × LayerEntry)) (k : String)
    (g : LayerEntry → LayerEntry) (hg : ∀ e, (g e).features = e.features) :
    featsOf (JsObj.modify m k g) = featsOf m := by
  unfold JsObj.modify featsOf
  rw [List.map_map]
  have hfun : ((fun p : String × LayerEntry => p.2.features.getD []) ∘
      (fun p : String × LayerEntry =>
        if p.1 == k then (p.1, g p.2) else p))
      = (fun p : String × LayerEntry => p.2.features.getD []) := by
    funext p
    cases hp : p.1 == k with
    | true =>
        have hp2 : p.1 = k := by simpa using hp
        simp [hp2, hg]
    | false =>
        have hp2 : ¬ p.1 = k := by simpa using hp
        simp [hp2]
  rw [hfun]

theorem allFeatures_applyOp_sub (r : Registry) (o : RegOp) (f : Feature)
    (h : f ∈ (r.applyOp o).allFeatures) :
    f ∈ r.allFeatures ∨ f ∈ o.newFeatures := by
  cases o with
  | put part id e =>
      cases part with
      | uploaded =>
          rw [allFeatures_eq] at h
          simp only [Registry.applyOp] at h
          rcases List.mem_append.mp h with h1 | h1
          · rcases featsOf_set_sub _ _ _ _ h1 with h2 | h2
            · exact Or.inl (by rw [allFeatures_eq]; exact List.mem_append_left _ h2)
            · exact Or.inr h2
          · exact Or.inl (by rw [allFeatures_eq]; exact List.mem_append_right _ h1)
      | repo =>
          rw [allFeatures_eq] at h
          simp only [Registry.applyOp] at h
          rcases List.mem_append.mp h with h1 | h1
          · exact Or.inl (by rw [allFeatures_eq]; exact List.mem_append_left _ h1)
          · rcases featsOf_set_sub _ _ _ _ h1 with h2 | h2
            · exact Or.inl (by rw [allFeatures_eq]; exact List.mem_append_right _ h2)
            · exact Or.inr h2
  | removeUploaded id =>
      rw [allFeatures_eq] at h
      simp only [Registry.applyOp] at h
      rcases List.mem_append.mp h with h1 | h1
      · exact Or.inl (by
          rw [allFeatures_eq]
          exact List.mem_append_left _ (featsOf_del_sub _ _ _ h1))
      · exact Or.inl (by rw [allFeatures_eq]; exact List.mem_append_right _ h1)
  | setActive part id b =>
      cases part with
      | uploaded =>
          rw [allFeatures_eq] at h
          simp only [Registry.applyOp] at h
          rw [featsOf_modify r.uploaded id
            (fun e => { e with active := b }) (fun e => rfl)] at h
          exact Or.inl (by rw [allFeatures_eq]; exact h)
      | repo =>
          rw [allFeatures_eq] at h
          simp only [Registry.applyOp] at h
          rw [featsOf_modify r.repo id
            (fun e => { e with active := b }) (fun e => rfl)] at h
          exact Or.inl (by rw [allFeatures_eq]; exact h)
  | setOpacity part id v =>
      cases part with
      | uploaded =>
          rw [allFeatures_eq] at h
          simp only [Registry.applyOp] at h
          rw [featsOf_modify r.uploaded id
            (fun e => { e with opacity := v }) (fun e => rfl)] at h
          exact Or.inl (by rw [allFeatures_eq]; exact h)
      | repo =>
          rw [allFeatures_eq] at h
          simp only [Registry.applyOp] at h
          rw [featsOf_modify r.repo id
            (fun e => { e with opacity := v }) (fun e => rfl)] at h
          exact Or.inl (by rw [allFeatures_eq]; exact h)

theorem runOps_preserves_absent (ops : List RegOp) (r : Registry)
    (F : List Feature) (h0 : ∀ f ∈ F, f ∉ r.allFeatures)
    (hfresh : ∀ o ∈ ops, ∀ f ∈ o.newFeatures, f ∉ F) :
    ∀ f ∈ F, f ∉ (r.runOps ops).allFeatures := by
  induction ops generalizing r with
  | nil => simpa [Registry.runOps] using h0
  | cons o rest ih =>
      have hstep : ∀ f ∈ F, f ∉ (r.applyOp o).allFeatures := by
        intro f hf hmem
        rcases allFeatures_applyOp_sub r o f hmem with h1 | h1
        · exact h0 f hf h1
        · exact hfresh o (List.mem_cons_self o rest) f h1 hf
      have := ih (r.applyOp o) hstep
        (fun o2 ho2 => hfresh o2 (List.mem_cons_of_mem o ho2))
      simpa [Registry.runOps] using this

/-- Claim C4: after an uploaded entry is removed, no subsequent sequence of
registry operations makes any of its former features appear in
`getAllActiveFeatures()`, even if the entry was active at removal time.
The freshness hypotheses reflect JS object identity: the removed entry was
the sole holder of its feature objects, and every feature a later commit
introduces is a freshly constructed object. -/
theorem claim_C4 (r : Registry) (i : String) (e : LayerEntry)
    (ops : List RegOp) (_hget : JsObj.get r.uploaded i = some e)
    (hsolo : ∀ f ∈ e.features.getD [],
      f ∉ (r.applyOp (.removeUploaded i)).allFeatures)
    (hfresh : ∀ o ∈ ops, ∀ f ∈ o.newFeatures, f ∉ e.features.getD []) :
    ∀ f ∈ ((r.applyOp (.removeUploaded i)).runOps ops).getAllActiveFeatures,
      f ∉ e.features.getD [] := by
  intro f hagg hF
  exact runOps_preserves_absent ops (r.applyOp (.removeUploaded i))
    (e.features.getD []) hsolo hfresh f hF
    (getAllActive_sub_allFeatures _ f hagg)

/-- Witness for C4: a registry with one active uploaded entry; after the
removal, a fresh upload plus its activation do not bring the removed
feature back into the aggregate query. -/
theorem claim_C4_witness :
    w4Feat1 ∈ w4Entry1.features.getD []
    ∧ w4Feat1 ∉
        ((w4Reg.applyOp (.removeUploaded "upload_a")).runOps
          w4Ops).getAllActiveFeatures :=
  ⟨by decide, fun hmem =>
    claim_C4 w4Reg "upload_a" w4Entry1 w4Ops rfl (by decide)
      (by decide) w4Feat1 hmem (by decide)⟩

/-! The label-field resolver (claim C2). -/

/-- Counterexample to C2 as stated: a config declaring an explicit
`labelField` together with an empty feature list.  The claimed precedence
(tier 1 first, null only in tier 4) would return the explicit field, but
`computeLabelField` checks `!features.length` first and returns null. -/
theorem claim_C2_counterexample :
    truthyStr cxLabelCfg.labelField = true
    ∧ computeLabelField none cxLabelCfg [] = none
    ∧ ¬ computeLabelField none cxLabelCfg [] = cxLabelCfg.labelField := by
  refine ⟨by decide, rfl, by decide⟩

/-- Claim C2 (amended): the empty-feature-list check comes first and
returns null even when tiers 1-3 would apply; on a nonempty feature list
the precedence is: explicit truthy `labelField` on the config, then the
fixed defaults for the known repo types (`municipality` maps to `NAME_1`,
`zone` maps to `zone`), then the guess-label-property service when it is
available, and null otherwise. -/
theorem claim_C2_amended (guessSvc : Option (List Feature → Option String))
    (cfg : LayerConfig) (features : List Feature) :
    (features = [] → computeLabelField guessSvc cfg features = none)
    ∧ (¬ features = [] → truthyStr cfg.labelField = true →
        computeLabelField guessSvc cfg features = cfg.labelField)
    ∧ (¬ features = [] → truthyStr cfg.labelField = false →
        cfg.type = some "municipality" →
        computeLabelField guessSvc cfg features = some "NAME_1")
    ∧ (¬ features = [] → truthyStr cfg.labelField = false →
        cfg.type = some "zone" →
        computeLabelField guessSvc cfg features = some "zone")
    ∧ (∀ g, ¬ features = [] → truthyStr cfg.labelField = false →
        ¬ cfg.type = some "municipality" → ¬ cfg.type = some "zone" →
        guessSvc = some g →
        computeLabelField guessSvc cfg features = g features)
    ∧ (¬ features = [] → truthyStr cfg.labelField = false →
        ¬ cfg.type = some "municipality" → ¬ cfg.type = some "zone" →
        guessSvc = none →
        computeLabelField guessSvc cfg features = none) := by
  unfold computeLabelField
  refine ⟨?_, ?_, ?_, ?_, ?_, ?_⟩
  · intro h
    simp [h]
  · intro h1 h2
    simp [List.isEmpty_iff, h1, h2]
  · intro h1 h2 h3
    simp [List.isEmpty_iff, h1, h2, h3]
  · intro h1 h2 h3
    have h4 : ¬ cfg.type = some "municipality" := by
      rw [h3]
      decide
    simp [List.isEmpty_iff, h1, h2, h3, h4]
  · intro g h1 h2 h3 h4 h5
    simp [List.isEmpty_iff, h1, h2, h3, h4, h5]
  · intro h1 h2 h3 h4 h5
    simp [List.isEmpty_iff, h1, h2, h3, h4, h5]

/-- Witness for C2 (amended): tier 2 at a concrete input — a nonempty
feature list and an explicit `labelField` yield the explicit field. -/
theorem claim_C2_witness :
    truthyStr cxLabelCfg.labelField = true
    ∧ computeLabelField none cxLabelCfg [w2Feat] = cxLabelCfg.labelField :=
  ⟨by decide,
   (claim_C2_amended none cxLabelCfg [w2Feat]).2.1 (by decide) (by decide)⟩

/-! Grouping (claims C9 and C10). -/

theorem bucket_foldl (l : List LayerConfig)
    (gs : List (String × List LayerConfig)) (t : String) :
    (JsObj.get (l.foldl groupStep gs) t).getD []
      = (JsObj.get gs t).getD [] ++ l.filter (fun cfg => typeKey cfg == t) := by
  induction l generalizing gs with
  | nil => simp
  | cons c rest ih =>
      simp only [List.foldl_cons, List.filter_cons]
      rw [ih]
      by_cases h : typeKey c = t
      · subst h
        rw [show groupStep gs c
              = JsObj.set gs (typeKey c)
                  ((JsObj.get gs (typeKey c)).getD [] ++ [c]) from rfl]
        rw [JsObj.get_set_self]
        simp
      · rw [show groupStep gs c
              = JsObj.set gs (typeKey c)
                  ((JsObj.get gs (typeKey c)).getD [] ++ [c]) from rfl]
        rw [JsObj.get_set_ne gs (typeKey c) t _ (fun hh => h hh.symm)]
        have hb : (typeKey c == t) = false := by
          simpa using h
        simp [hb]

theorem groupRepoLayers_bucket (config : List LayerConfig) (t : String) :
    (JsObj.get (groupRepoLayers config) t).getD []
      = config.filter (fun cfg => typeKey cfg == t) := by
  have h := bucket_foldl config [] t
  simpa [groupRepoLayers, JsObj.get] using h

/-- Claim C9: `groupRepoLayers` maps each type key to exactly the configs
carrying that key, in their relative order of appearance in the input
list. -/
theorem claim_C9 (config : List LayerConfig) (t : String) :
    (JsObj.get (groupRepoLayers config) t).getD []
      = config.filter (fun cfg => typeKey cfg == t) :=
  groupRepoLayers_bucket config t

theorem typeKey_ne_empty (cfg : LayerConfig) : ¬ typeKey cfg = "" := by
  unfold typeKey
  cases h : cfg.type with
  | none => decide
  | some s =>
      cases hs : s == "" with
      | true =>
          have hs2 : s = "" := by simpa using hs
          subst hs2
          decide
      | false =>
          have : ¬ s = "" := by simpa using hs
          simpa [hs] using this

theorem keys_group_foldl_sub (l : List LayerConfig)
    (gs : List (String × List LayerConfig)) (k : String)
    (h : k ∈ JsObj.keys (l.foldl groupStep gs)) :
    k ∈ JsObj.keys gs ∨ ∃ cfg ∈ l, k = typeKey cfg := by
  induction l generalizing gs with
  | nil => exact Or.inl h
  | cons c rest ih =>
      simp only [List.foldl_cons] at h
      rcases ih (groupStep gs c) h with h1 | h1
      · rcases JsObj.keys_set_sub gs (typeKey c) _ k h1 with h2 | h2
        · exact Or.inl h2
        · exact Or.inr ⟨c, List.mem_cons_self c rest, h2⟩
      · rcases h1 with ⟨cfg, hc, hk⟩
        exact Or.inr ⟨cfg, List.mem_cons_of_mem c hc, hk⟩

/-- Claim C10: a config with an absent or falsy `type` lands in the bucket
keyed `"other"`; every key of the returned mapping is a nonempty string;
and no config is dropped (each appears in the bucket of its type key). -/
theorem claim_C10 (config : List LayerConfig) :
    (∀ cfg ∈ config, (cfg.type = none ∨ cfg.type = some "") →
        cfg ∈ (JsObj.get (groupRepoLayers config) "other").getD [])
    ∧ (∀ k ∈ JsObj.keys (groupRepoLayers config), ¬ k = "")
    ∧ (∀ cfg ∈ config,
        cfg ∈ (JsObj.get (groupRepoLayers config) (typeKey cfg)).getD []) := by
  refine ⟨?_, ?_, ?_⟩
  · intro cfg hc htype
    rw [groupRepoLayers_bucket]
    have hk : typeKey cfg = "other" := by
      rcases htype with h | h <;> simp [typeKey, h]
    rw [List.mem_filter]
    exact ⟨hc, by simp [hk]⟩
  · intro k hk hke
    rcases keys_group_foldl_sub config [] k hk with h1 | h1
    · simp [JsObj.keys] at h1
    · rcases h1 with ⟨cfg, _, hkeq⟩
      rw [hke] at hkeq
      exact typeKey_ne_empty cfg hkeq.symm
  · intro cfg hc
    rw [groupRepoLayers_bucket, List.mem_filter]
    exact ⟨hc, by simp⟩

/-- Witness for C10: a config without a `type` lands in the `"other"`
bucket. -/
theorem claim_C10_witness :
    w10Cfg ∈ (JsObj.get (groupRepoLayers [w10Cfg]) "other").getD [] :=
  (claim_C10 [w10Cfg]).1 w10Cfg (by decide) (Or.inl rfl)

/-! The coordinate normalizer (claim C7) and CSV ingestion (claim C6). -/

/-- Claim C7: `utmToLatLon32620` is total (the embedding returns an
`Option`, never raising): it returns null when proj4 is absent, when proj4
throws, and when the produced latitude or longitude is not finite; in the
remaining case it returns the `{lat, lon}` pair produced by the service. -/
theorem claim_C7 (env : CsvEnv) (easting northing : JsNum) :
    (env.proj4 = none → utmToLatLon32620 env easting northing = none)
    ∧ (∀ p, env.proj4 = some p → p utm20 wgs84 easting northing = .error () →
        utmToLatLon32620 env easting northing = none)
    ∧ (∀ p lon lat, env.proj4 = some p →
        p utm20 wgs84 easting northing = .ok (lon, lat) →
        (lat.isFinite = false ∨ lon.isFinite = false) →
        utmToLatLon32620 env easting northing = none)
    ∧ (∀ p lon lat, env.proj4 = some p →
        p utm20 wgs84 easting northing = .ok (lon, lat) →
        lat.isFinite = true → lon.isFinite = true →
        utmToLatLon32620 env easting northing
          = some { lat := lat, lon := lon }) := by
  refine ⟨?_, ?_, ?_, ?_⟩
  · intro h
    simp [utmToLatLon32620, h]
  · intro p hp herr
    simp [utmToLatLon32620, hp, herr]
  · intro p lon lat hp hok hnf
    rcases hnf with h | h <;> simp [utmToLatLon32620, hp, hok, h]
  · intro p lon lat hp hok hlat hlon
    simp [utmToLatLon32620, hp, hok, hlat, hlon]

/-- Witness for C7: with proj4 absent the normalizer returns null. -/
theorem claim_C7_witness :
    utmToLatLon32620 w7Env (JsNum.fin 1) (JsNum.fin 2) = none :=
  (claim_C7 w7Env (JsNum.fin 1) (JsNum.fin 2)).1 rfl

theorem handleCsv_foldl_eq (env : CsvEnv) (fn : String)
    (rows : List (List (String × String))) (acc : List Feature) :
    rows.foldl (fun features r =>
      match csvRowFeature env fn r with
      | none => features
      | some f => features ++ [f]) acc
      = acc ++ rows.filterMap (csvRowFeature env fn) := by
  induction rows generalizing acc with
  | nil => simp
  | cons r rest ih =>
      simp only [List.foldl_cons, List.filterMap_cons]
      cases h : csvRowFeature env fn r <;> simp [h, ih]

/-- Claim C6: the CSV handler emits one feature per row exactly when both
`Easting` and `Northing` parse to finite floats and the normalizer returns
a non-null result; each emitted feature is a point carrying the original
row properties plus the `__sourceFile` tag and `__assumedCRS` set to
`EPSG:32620` (a row property under one of those two reserved keys is
overwritten by the tag, as the object spread does). -/
theorem claim_C6 (env : CsvEnv) (fn : String)
    (rows : List (List (String × String))) :
    handleCsvUpload env fn rows = rows.filterMap (csvRowFeature env fn)
    ∧ (∀ r, (csvRowFeature env fn r).isSome = true ↔
        ((parseFloatOpt env (JsObj.get r "Easting")).isFinite = true
         ∧ (parseFloatOpt env (JsObj.get r "Northing")).isFinite = true
         ∧ (utmToLatLon32620 env (parseFloatOpt env (JsObj.get r "Easting"))
              (parseFloatOpt env (JsObj.get r "Northing"))).isSome = true))
    ∧ (∀ r f, csvRowFeature env fn r = some f →
        (∃ ll, utmToLatLon32620 env
            (parseFloatOpt env (JsObj.get r "Easting"))
            (parseFloatOpt env (JsObj.get r "Northing")) = some ll
          ∧ f.geometry = Geometry.point ll.lon ll.lat)
        ∧ JsObj.get f.props "__sourceFile" = some fn
        ∧ JsObj.get f.props "__assumedCRS" = some "EPSG:32620"
        ∧ (∀ k, ¬ k = "__sourceFile" → ¬ k = "__assumedCRS" →
            JsObj.get f.props k = JsObj.get r k)) := by
  refine ⟨?_, ?_, ?_⟩
  · unfold handleCsvUpload
    exact handleCsv_foldl_eq env fn rows []
  · intro r
    unfold csvRowFeature
    cases he : (parseFloatOpt env (JsObj.get r "Easting")).isFinite with
    | false => simp [he]
    | true =>
        cases hn : (parseFloatOpt env (JsObj.get r "Northing")).isFinite with
        | false => simp [he, hn]
        | true =>
            simp only [he, hn]
            cases hu : utmToLatLon32620 env
                (parseFloatOpt env (JsObj.get r "Easting"))
                (parseFloatOpt env (JsObj.get r "Northing")) with
            | none => simp [hu]
            | some ll => simp [hu]
  · intro r f hf
    unfold csvRowFeature at hf
    cases he : (parseFloatOpt env (JsObj.get r "Easting")).isFinite with
    | false => simp [he] at hf
    | true =>
        cases hn : (parseFloatOpt env (JsObj.get r "Northing")).isFinite with
        | false => simp [he, hn] at hf
        | true =>
            simp only [he, hn, Bool.not_true, Bool.or_self,
              Bool.false_eq_true, if_false] at hf
            cases hu : utmToLatLon32620 env
                (parseFloatOpt env (JsObj.get r "Easting"))
                (parseFloatOpt env (JsObj.get r "Northing")) with
            | none => simp [hu] at hf
            | some ll =>
                rw [hu] at hf
                simp only [Option.some.injEq] at hf
                subst hf
                refine ⟨⟨ll, rfl, rfl⟩, ?_, ?_, ?_⟩
                · rw [JsObj.get_set_ne _ _ _ _ (by decide)]
                  exact JsObj.get_set_self _ _ _
                · exact JsObj.get_set_self _ _ _
                · intro k hk1 hk2
                  rw [JsObj.get_set_ne _ _ _ _ hk2,
                    JsObj.get_set_ne _ _ _ _ hk1]

/-- Witness for C6: a concrete well-formed row is emitted. -/
theorem claim_C6_witness :
    handleCsvUpload w6Env "pts.csv" [w6Row]
      = [w6Row].filterMap (csvRowFeature w6Env "pts.csv")
    ∧ (csvRowFeature w6Env "pts.csv" w6Row).isSome = true :=
  ⟨(claim_C6 w6Env "pts.csv" [w6Row]).1,
   ((claim_C6 w6Env "pts.csv" [w6Row]).2.1 w6Row).mpr
     ⟨by decide, by decide, by decide⟩⟩

/-! The preloader (claims C3, C5 and C8): per-step behaviour. -/

theorem preloadStep_skip (env : PreloadEnv) (s : PreloadState)
    (cfg : LayerConfig) (h : (JsObj.get s.repo cfg.id).isSome = true) :
    preloadStep env s cfg = s := by
  unfold preloadStep
  simp [h]

theorem preloadStep_fail (env : PreloadEnv) (s : PreloadState)
    (cfg : LayerConfig) (h1 : (JsObj.get s.repo cfg.id).isSome = false)
    (h2 : env.fetchBuild cfg = none) :
    preloadStep env s cfg
      = { s with events := s.events
          ++ [.fetchCalled cfg.url, .warnFailed cfg.name] } := by
  unfold preloadStep
  simp [h1, h2]

theorem preloadStep_ok (env : PreloadEnv) (s : PreloadState)
    (cfg : LayerConfig) (b : BuildResult)
    (h1 : (JsObj.get s.repo cfg.id).isSome = false)
    (h2 : env.fetchBuild cfg = some b) :
    preloadStep env s cfg
      = { s with
          repo := JsObj.set s.repo cfg.id
            (mkRepoEntry env.guessLabelProperty cfg b)
          events := s.events ++ [.fetchCalled cfg.url] } := by
  unfold preloadStep
  simp [h1, h2]

theorem get_set_isSome_mono {α : Type} (m : List (String × α)) (k : String)
    (v : α) (k2 : String) (h : (JsObj.get m k2).isSome = true) :
    (JsObj.get (JsObj.set m k v) k2).isSome = true := by
  by_cases hk : k2 = k
  · subst hk
    simp [JsObj.get_set_self]
  · rw [JsObj.get_set_ne _ _ _ _ hk]
    exact h

theorem preloadStep_isSome_mono (env : PreloadEnv) (s : PreloadState)
    (cfg : LayerConfig) (k : String)
    (h : (JsObj.get s.repo k).isSome = true) :
    (JsObj.get (preloadStep env s cfg).repo k).isSome = true := by
  cases h1 : (JsObj.get s.repo cfg.id).isSome with
  | true =>
      rw [preloadStep_skip env s cfg h1]
      exact h
  | false =>
      cases h2 : env.fetchBuild cfg with
      | none =>
          rw [preloadStep_fail env s cfg h1 h2]
          exact h
      | some b =>
          rw [preloadStep_ok env s cfg b h1 h2]
          exact get_set_isSome_mono s.repo cfg.id _ k h

theorem preloadLoop_isSome_mono (env : PreloadEnv) (cfgs : List LayerConfig) :
    ∀ (s : PreloadState) (k : String),
      (JsObj.get s.repo k).isSome = true →
      (JsObj.get (preloadLoop env s cfgs).repo k).isSome = true := by
  induction cfgs with
  | nil => intro s k h; exact h
  | cons c rest ih =>
      intro s k h
      exact ih (preloadStep env s c) k (preloadStep_isSome_mono env s c k h)

theorem preloadStep_events_extend (env : PreloadEnv) (s : PreloadState)
    (cfg : LayerConfig) :
    ∃ extra, (preloadStep env s cfg).events = s.events ++ extra
      ∧ PreloadEvent.repoPreloaded ∉ extra := by
  cases h1 : (JsObj.get s.repo cfg.id).isSome with
  | true =>
      rw [preloadStep_skip env s cfg h1]
      exact ⟨[], by simp, by simp⟩
  | false =>
      cases h2 : env.fetchBuild cfg with
      | none =>
          rw [preloadStep_fail env s cfg h1 h2]
          exact ⟨[.fetchCalled cfg.url, .warnFailed cfg.name], rfl, by simp⟩
      | some b =>
          rw [preloadStep_ok env s cfg b h1 h2]
          exact ⟨[.fetchCalled cfg.url], rfl, by simp⟩

theorem preloadLoop_events_extend (env : PreloadEnv) (cfgs : List LayerConfig) :
    ∀ (s : PreloadState),
      ∃ extra, (preloadLoop env s cfgs).events = s.events ++ extra
        ∧ PreloadEvent.repoPreloaded ∉ extra := by
  induction cfgs with
  | nil => intro s; exact ⟨[], by simp [preloadLoop], by simp⟩
  | cons c rest ih =>
      intro s
      obtain ⟨e1, he1, hn1⟩ := preloadStep_events_extend env s c
      obtain ⟨e2, he2, hn2⟩ := ih (preloadStep env s c)
      refine ⟨e1 ++ e2, ?_, ?_⟩
      · show (preloadLoop env (preloadStep env s c) rest).events
            = s.events ++ (e1 ++ e2)
        rw [he2, he1, List.append_assoc]
      · simp [hn1, hn2]

theorem preloadLoop_events_mono (env : PreloadEnv) (cfgs : List LayerConfig)
    (s : PreloadState) (ev : PreloadEvent) (h : ev ∈ s.events) :
    ev ∈ (preloadLoop env s cfgs).events := by
  obtain ⟨extra, he, _⟩ := preloadLoop_events_extend env cfgs s
  rw [he]
  exact List.mem_append_left _ h

/-! The roads forcing. -/

theorem forceRoadsOn_repo (s : PreloadState) :
    ((forceRoadsOn s).repo = s.repo
      ∧ (∀ e, JsObj.get s.repo "major_roads" = some e → e.layer = none))
    ∨ ∃ e l, JsObj.get s.repo "major_roads" = some e ∧ e.layer = some l
        ∧ (forceRoadsOn s).repo
            = JsObj.set s.repo "major_roads" { e with active := true } := by
  unfold forceRoadsOn
  split
  next hg =>
    left
    refine ⟨rfl, ?_⟩
    intro e he
    rw [hg] at he
    cases he
  next e0 hg =>
    split
    next hl =>
      left
      refine ⟨rfl, ?_⟩
      intro e2 he2
      rw [hg] at he2
      obtain rfl : e0 = e2 := by simpa using he2
      exact hl
    next l hl =>
      right
      refine ⟨e0, l, hg, hl, ?_⟩
      dsimp only
      split <;> rfl

theorem forceRoadsOn_events (s : PreloadState) :
    (forceRoadsOn s).events = s.events := by
  unfold forceRoadsOn
  split
  · rfl
  · split
    · rfl
    · dsimp only
      split <;> rfl

theorem forceRoadsOn_roads_active (s : PreloadState) (e : LayerEntry)
    (h : JsObj.get (forceRoadsOn s).repo "major_roads" = some e)
    (hl : e.layer.isSome = true) : e.active = true := by
  rcases forceRoadsOn_repo s with ⟨hr, hnone⟩ | ⟨e0, l, hg, hle, hr⟩
  · rw [hr] at h
    rw [hnone e h] at hl
    cases hl
  · rw [hr, JsObj.get_set_self] at h
    obtain rfl : ({ e0 with active := true } : LayerEntry) = e := by
      simpa using h
    rfl

theorem forceRoadsOn_isSome_mono (s : PreloadState) (k : String)
    (h : (JsObj.get s.repo k).isSome = true) :
    (JsObj.get (forceRoadsOn s).repo k).isSome = true := by
  rcases forceRoadsOn_repo s with ⟨hr, _⟩ | ⟨e0, l, hg, hle, hr⟩
  · rw [hr]
    exact h
  · rw [hr]
    exact get_set_isSome_mono s.repo "major_roads" _ k h

theorem forceRoadsOn_get_none (s : PreloadState) (k : String)
    (h : JsObj.get s.repo k = none) :
    JsObj.get (forceRoadsOn s).repo k = none := by
  rcases forceRoadsOn_repo s with ⟨hr, _⟩ | ⟨e0, l, hg, hle, hr⟩
  · rw [hr]
    exact h
  · rw [hr]
    by_cases hk : k = "major_roads"
    · subst hk
      rw [hg] at h
      cases h
    · rw [JsObj.get_set_ne _ _ _ _ hk]
      exact h

theorem forceRoadsOn_repo_fixed (s : PreloadState)
    (h : ∀ e, JsObj.get s.repo "major_roads" = some e →
        e.layer.isSome = true → e.active = true) :
    (forceRoadsOn s).repo = s.repo := by
  rcases forceRoadsOn_repo s with ⟨hr, _⟩ | ⟨e0, l, hg, hle, hr⟩
  · exact hr
  · rw [hr]
    have hact : e0.active = true := h e0 hg (by simp [hle])
    have he : ({ e0 with active := true } : LayerEntry) = e0 := by
      cases e0
      simp_all
    rw [he]
    exact JsObj.set_eq_of_get _ _ _ hg

/-! Settled runs and idempotency (claim C5). -/

theorem preloadLoop_repo_settled (env : PreloadEnv) :
    ∀ (cfgs : List LayerConfig) (s : PreloadState),
      Settled env s.repo cfgs → (preloadLoop env s cfgs).repo = s.repo := by
  intro cfgs
  induction cfgs with
  | nil => intro s _; rfl
  | cons c rest ih =>
      intro s h
      have hc := h c (List.mem_cons_self c rest)
      have hrest : Settled env s.repo rest :=
        fun cfg hcf => h cfg (List.mem_cons_of_mem c hcf)
      show (preloadLoop env (preloadStep env s c) rest).repo = s.repo
      have hstep : (preloadStep env s c).repo = s.repo := by
        rcases hc with hs | hf
        · rw [preloadStep_skip env s c hs]
        · cases h1 : (JsObj.get s.repo c.id).isSome with
          | true => rw [preloadStep_skip env s c h1]
          | false => rw [preloadStep_fail env s c h1 hf]
      have hsettled2 : Settled env (preloadStep env s c).repo rest := by
        rw [hstep]
        exact hrest
      rw [ih (preloadStep env s c) hsettled2, hstep]

theorem preloadLoop_settled (env : PreloadEnv) :
    ∀ (cfgs : List LayerConfig) (s : PreloadState),
      Settled env (preloadLoop env s cfgs).repo cfgs := by
  intro cfgs
  induction cfgs with
  | nil =>
      intro s cfg hc
      cases hc
  | cons c rest ih =>
      intro s cfg hc
      rcases List.mem_cons.mp hc with rfl | hcr
      · cases h1 : (JsObj.get s.repo cfg.id).isSome with
        | true =>
            left
            show (JsObj.get (preloadLoop env (preloadStep env s cfg) rest).repo
              cfg.id).isSome = true
            exact preloadLoop_isSome_mono env rest _ cfg.id
              (preloadStep_isSome_mono env s cfg cfg.id h1)
        | false =>
            cases h2 : env.fetchBuild cfg with
            | none => right; rfl
            | some b =>
                left
                show (JsObj.get (preloadLoop env (preloadStep env s cfg)
                  rest).repo cfg.id).isSome = true
                apply preloadLoop_isSome_mono env rest
                rw [preloadStep_ok env s cfg b h1 h2]
                show (JsObj.get (JsObj.set s.repo cfg.id
                  (mkRepoEntry env.guessLabelProperty cfg b))
                  cfg.id).isSome = true
                rw [JsObj.get_set_self]
                rfl
      · exact ih (preloadStep env s c) cfg hcr

theorem preloadRepoLayers_settled (env : PreloadEnv)
    (cfgs : List LayerConfig) (s : PreloadState) :
    Settled env (preloadRepoLayers env cfgs s).repo cfgs := by
  intro cfg hc
  rcases preloadLoop_settled env cfgs s cfg hc with h1 | h1
  · left
    show (JsObj.get (forceRoadsOn (preloadReadyState env cfgs s)).repo
      cfg.id).isSome = true
    exact forceRoadsOn_isSome_mono _ cfg.id h1
  · right
    exact h1

theorem preloadRepoLayers_roads_prop (env : PreloadEnv)
    (cfgs : List LayerConfig) (s : PreloadState) :
    ∀ e, JsObj.get (preloadRepoLayers env cfgs s).repo "major_roads" = some e →
      e.layer.isSome = true → e.active = true := by
  intro e hg hl
  exact forceRoadsOn_roads_active (preloadReadyState env cfgs s) e hg hl

theorem preloadRepoLayers_second_run (env : PreloadEnv)
    (cfgs : List LayerConfig) (s : PreloadState)
    (hsettled : Settled env s.repo cfgs)
    (hroads : ∀ e, JsObj.get s.repo "major_roads" = some e →
        e.layer.isSome = true → e.active = true) :
    (preloadRepoLayers env cfgs s).repo = s.repo := by
  have hloop : (preloadLoop env s cfgs).repo = s.repo :=
    preloadLoop_repo_settled env cfgs s hsettled
  show (forceRoadsOn (preloadReadyState env cfgs s)).repo = s.repo
  rw [forceRoadsOn_repo_fixed]
  · exact hloop
  · intro e hg hl
    apply hroads e _ hl
    rw [← hloop]
    exact hg

theorem preloadStep_nodup (env : PreloadEnv) (s : PreloadState)
    (cfg : LayerConfig) (h : (JsObj.keys s.repo).Nodup) :
    (JsObj.keys (preloadStep env s cfg).repo).Nodup := by
  cases h1 : (JsObj.get s.repo cfg.id).isSome with
  | true =>
      rw [preloadStep_skip env s cfg h1]
      exact h
  | false =>
      cases h2 : env.fetchBuild cfg with
      | none =>
          rw [preloadStep_fail env s cfg h1 h2]
          exact h
      | some b =>
          rw [preloadStep_ok env s cfg b h1 h2]
          exact JsObj.nodup_keys_set s.repo cfg.id _ h

theorem preloadLoop_nodup (env : PreloadEnv) (cfgs : List LayerConfig) :
    ∀ (s : PreloadState), (JsObj.keys s.repo).Nodup →
      (JsObj.keys (preloadLoop env s cfgs).repo).Nodup := by
  induction cfgs with
  | nil => intro s h; exact h
  | cons c rest ih =>
      intro s h
      exact ih (preloadStep env s c) (preloadStep_nodup env s c h)

theorem forceRoadsOn_nodup (s : PreloadState)
    (h : (JsObj.keys s.repo).Nodup) :
    (JsObj.keys (forceRoadsOn s).repo).Nodup := by
  rcases forceRoadsOn_repo s with ⟨hr, _⟩ | ⟨e0, l, hg, hle, hr⟩
  · rw [hr]
    exact h
  · rw [hr]
    exact JsObj.nodup_keys_set s.repo "major_roads" _ h

theorem preloadRepoLayers_nodup (env : PreloadEnv) (cfgs : List LayerConfig)
    (s : PreloadState) (h : (JsObj.keys s.repo).Nodup) :
    (JsObj.keys (preloadRepoLayers env cfgs s).repo).Nodup := by
  show (JsObj.keys (forceRoadsOn (preloadReadyState env cfgs s)).repo).Nodup
  exact forceRoadsOn_nodup _ (preloadLoop_nodup env cfgs s h)

/-- Claim C5: running the preloader twice over the same config set (in the
same environment) yields the same repo partition as running it once, and
the skip check keeps the ids unique: exactly one entry per id, no
duplicates. -/
theorem claim_C5 (env : PreloadEnv) (cfgs : List LayerConfig)
    (s : PreloadState) (h : (JsObj.keys s.repo).Nodup) :
    (preloadRepoLayers env cfgs (preloadRepoLayers env cfgs s)).repo
        = (preloadRepoLayers env cfgs s).repo
    ∧ (JsObj.keys (preloadRepoLayers env cfgs s).repo).Nodup :=
  ⟨preloadRepoLayers_second_run env cfgs (preloadRepoLayers env cfgs s)
      (preloadRepoLayers_settled env cfgs s)
      (preloadRepoLayers_roads_prop env cfgs s),
   preloadRepoLayers_nodup env cfgs s h⟩

/-- Witness for C5: a one-config set preloaded twice from the startup
state. -/
theorem claim_C5_witness :
    (JsObj.keys emptyPState.repo).Nodup
    ∧ ((preloadRepoLayers w5Env [w5CfgA]
          (preloadRepoLayers w5Env [w5CfgA] emptyPState)).repo
        = (preloadRepoLayers w5Env [w5CfgA] emptyPState).repo
      ∧ (JsObj.keys (preloadRepoLayers w5Env [w5CfgA]
          emptyPState).repo).Nodup) :=
  ⟨by decide, claim_C5 w5Env [w5CfgA] emptyPState (by decide)⟩

/-! The panel exclusion of roads and the forced-active policy (claim C3). -/

theorem panelStep_preserve (repoGroups : List (String × List LayerConfig))
    (acc : List (GroupDef × List LayerConfig)) (g : GroupDef)
    (h : ∀ pr ∈ acc, ∀ cfg ∈ pr.2, ¬ cfg.type = some "roads") :
    ∀ pr ∈ panelStep repoGroups acc g, ∀ cfg ∈ pr.2,
      ¬ cfg.type = some "roads" := by
  intro pr hpr
  unfold panelStep at hpr
  split at hpr
  · exact h pr hpr
  next list hlist =>
    split at hpr
    · exact h pr hpr
    · dsimp only at hpr
      split at hpr
      · exact h pr hpr
      · rcases List.mem_append.mp hpr with hpr | hpr
        · exact h pr hpr
        · obtain rfl : pr = (g, list.filter
              (fun cfg => !(cfg.type == some "roads"))) := by simpa using hpr
          intro cfg hcfg
          have hc2 := (List.mem_filter.mp hcfg).2
          simpa using hc2

theorem panelLists_no_roads (config : List LayerConfig)
    (groupOrder : List GroupDef) :
    ∀ pr ∈ panelLists config groupOrder, ∀ cfg ∈ pr.2,
      ¬ cfg.type = some "roads" := by
  unfold panelLists
  have hgen : ∀ (go : List GroupDef) (acc : List (GroupDef × List LayerConfig)),
      (∀ pr ∈ acc, ∀ cfg ∈ pr.2, ¬ cfg.type = some "roads") →
      ∀ pr ∈ go.foldl (panelStep (groupRepoLayers config)) acc,
        ∀ cfg ∈ pr.2, ¬ cfg.type = some "roads" := by
    intro go
    induction go with
    | nil => intro acc hacc; exact hacc
    | cons g rest ih =>
        intro acc hacc
        simp only [List.foldl_cons]
        exact ih _ (panelStep_preserve (groupRepoLayers config) acc g hacc)
  exact hgen groupOrder [] (by simp)

/-- Counterexample to C3 as stated: a config set whose only config is of
type `roads` but under an id other than the reserved `"major_roads"`; its
fetch succeeds, yet after the full preload run its entry still has
`active = false`, because the forcing looks up the fixed id, not the
type. -/
theorem claim_C3_counterexample :
    cxRoadsCfg.type = some "roads"
    ∧ (JsObj.get (preloadRepoLayers cxPreloadEnv [cxRoadsCfg]
          emptyPState).repo "secondary_roads").map LayerEntry.active
        = some false :=
  ⟨rfl, rfl⟩

/-- Claim C3 (amended): once the preloader has attempted the full set, the
repo entry stored under the reserved id `"major_roads"` — when it exists
and carries a renderable handle — has `active = true`, regardless of fetch
outcomes; and every config of type `roads` is absent from every grouped
presentation list, whatever the config set and group order. -/
theorem claim_C3_amended (env : PreloadEnv) (cfgs : List LayerConfig)
    (groupOrder : List GroupDef) (s : PreloadState) :
    (∀ e, JsObj.get (preloadRepoLayers env cfgs s).repo "major_roads"
        = some e → e.layer.isSome = true → e.active = true)
    ∧ (∀ pr ∈ panelLists cfgs groupOrder, ∀ cfg ∈ pr.2,
        ¬ cfg.type = some "roads") :=
  ⟨preloadRepoLayers_roads_prop env cfgs s,
   panelLists_no_roads cfgs groupOrder⟩

/-- Witness for C3 (amended): the reserved roads config, preloaded
successfully, ends up stored with `active = true`. -/
theorem claim_C3_witness :
    JsObj.get (preloadRepoLayers w3Env [w3Cfg] emptyPState).repo
      "major_roads" = some w3Entry
    ∧ w3Entry.active = true :=
  ⟨rfl, (claim_C3_amended w3Env [w3Cfg] [] emptyPState).1 w3Entry rfl rfl⟩

/-! Per-config failure isolation and the ready event (claim C8). -/

theorem preloadStep_get_none (env : PreloadEnv) (s : PreloadState)
    (cfg : LayerConfig) (k : String) (h0 : JsObj.get s.repo k = none)
    (hcfg : cfg.id = k → env.fetchBuild cfg = none) :
    JsObj.get (preloadStep env s cfg).repo k = none := by
  cases h1 : (JsObj.get s.repo cfg.id).isSome with
  | true =>
      rw [preloadStep_skip env s cfg h1]
      exact h0
  | false =>
      cases h2 : env.fetchBuild cfg with
      | none =>
          rw [preloadStep_fail env s cfg h1 h2]
          exact h0
      | some b =>
          by_cases hk : cfg.id = k
          · rw [hcfg hk] at h2
            exact Option.noConfusion h2
          · rw [preloadStep_ok env s cfg b h1 h2]
            show JsObj.get (JsObj.set s.repo cfg.id
              (mkRepoEntry env.guessLabelProperty cfg b)) k = none
            rw [JsObj.get_set_ne _ _ _ _ (fun hkk => hk hkk.symm)]
            exact h0

theorem preloadLoop_get_none (env : PreloadEnv) :
    ∀ (cfgs : List LayerConfig) (s : PreloadState) (k : String),
      JsObj.get s.repo k = none →
      (∀ cfg ∈ cfgs, cfg.id = k → env.fetchBuild cfg = none) →
      JsObj.get (preloadLoop env s cfgs).repo k = none := by
  intro cfgs
  induction cfgs with
  | nil => intro s k h0 _; exact h0
  | cons c rest ih =>
      intro s k h0 hall
      show JsObj.get (preloadLoop env (preloadStep env s c) rest).repo k = none
      apply ih (preloadStep env s c) k
      · exact preloadStep_get_none env s c k h0
          (hall c (List.mem_cons_self c rest))
      · intro cfg hc
        exact hall cfg (List.mem_cons_of_mem c hc)

theorem preloadLoop_fetchCalled (env : PreloadEnv) :
    ∀ (cfgs : List LayerConfig) (s : PreloadState) (cfg : LayerConfig),
      cfg ∈ cfgs → (cfgs.map LayerConfig.id).Nodup →
      JsObj.get s.repo cfg.id = none →
      PreloadEvent.fetchCalled cfg.url ∈ (preloadLoop env s cfgs).events := by
  intro cfgs
  induction cfgs with
  | nil => intro s cfg hc; cases hc
  | cons c rest ih =>
      intro s cfg hc hnd habs
      rw [List.map_cons] at hnd
      rcases List.mem_cons.mp hc with rfl | hcr
      · have h1 : (JsObj.get s.repo cfg.id).isSome = false := by
          simp [habs]
        show PreloadEvent.fetchCalled cfg.url
          ∈ (preloadLoop env (preloadStep env s cfg) rest).events
        apply preloadLoop_events_mono env rest
        cases h2 : env.fetchBuild cfg with
        | none =>
            rw [preloadStep_fail env s cfg h1 h2]
            simp
        | some b =>
            rw [preloadStep_ok env s cfg b h1 h2]
            simp
      · have hne : ¬ c.id = cfg.id := by
          intro he
          have hmem : cfg.id ∈ rest.map LayerConfig.id :=
            List.mem_map_of_mem LayerConfig.id hcr
          rw [← he] at hmem
          exact (List.nodup_cons.mp hnd).1 hmem
        have habs2 : JsObj.get (preloadStep env s c).repo cfg.id = none :=
          preloadStep_get_none env s c cfg.id habs
            (fun hkk => absurd hkk hne)
        exact ih (preloadStep env s c) cfg hcr (List.nodup_cons.mp hnd).2 habs2

/-- Claim C8: when the preload of one config fails, no repo entry for that
config is created; the preloader still issues the fetch for every config
not already present (failures of others do not abort it); and the
`layers:repoPreloaded` notification is emitted exactly once, after the
whole per-config trace. -/
theorem claim_C8 (env : PreloadEnv) (cfgs : List LayerConfig)
    (s : PreloadState) (hids : (cfgs.map LayerConfig.id).Nodup)
    (hev : s.events = []) :
    (∀ cfg ∈ cfgs, env.fetchBuild cfg = none →
        JsObj.get s.repo cfg.id = none →
        JsObj.get (preloadRepoLayers env cfgs s).repo cfg.id = none)
    ∧ (∀ cfg ∈ cfgs, JsObj.get s.repo cfg.id = none →
        PreloadEvent.fetchCalled cfg.url
          ∈ (preloadRepoLayers env cfgs s).events)
    ∧ (∃ pre, (preloadRepoLayers env cfgs s).events
          = pre ++ [PreloadEvent.repoPreloaded]
        ∧ PreloadEvent.repoPreloaded ∉ pre) := by
  refine ⟨?_, ?_, ?_⟩
  · intro cfg hc hfail habs
    show JsObj.get (forceRoadsOn (preloadReadyState env cfgs s)).repo
      cfg.id = none
    apply forceRoadsOn_get_none
    show JsObj.get (preloadLoop env s cfgs).repo cfg.id = none
    apply preloadLoop_get_none env cfgs s cfg.id habs
    intro c2 hc2 hid
    have hcc : c2 = cfg :=
      List.inj_on_of_nodup_map hids hc2 hc hid
    rw [hcc]
    exact hfail
  · intro cfg hc habs
    show PreloadEvent.fetchCalled cfg.url
      ∈ (forceRoadsOn (preloadReadyState env cfgs s)).events
    rw [forceRoadsOn_events]
    show PreloadEvent.fetchCalled cfg.url
      ∈ (preloadLoop env s cfgs).events ++ [PreloadEvent.repoPreloaded]
    exact List.mem_append_left _
      (preloadLoop_fetchCalled env cfgs s cfg hc hids habs)
  · obtain ⟨extra, he, hn⟩ := preloadLoop_events_extend env cfgs s
    refine ⟨extra, ?_, hn⟩
    show (forceRoadsOn (preloadReadyState env cfgs s)).events
      = extra ++ [PreloadEvent.repoPreloaded]
    rw [forceRoadsOn_events]
    show (preloadLoop env s cfgs).events ++ [PreloadEvent.repoPreloaded]
      = extra ++ [PreloadEvent.repoPreloaded]
    rw [he, hev]
    simp

/-- Witness for C8: a failing config and a succeeding one; the failing id
is absent from the final repo partition and the succeeding fetch was still
issued. -/
theorem claim_C8_witness :
    JsObj.get (preloadRepoLayers w8Env [w8CfgA, w8CfgB]
        emptyPState).repo "bad" = none
    ∧ PreloadEvent.fetchCalled "data/good.geojson"
        ∈ (preloadRepoLayers w8Env [w8CfgA, w8CfgB] emptyPState).events :=
  ⟨(claim_C8 w8Env [w8CfgA, w8CfgB] emptyPState (by decide) rfl).1 w8CfgA
      (by decide) rfl rfl,
   (claim_C8 w8Env [w8CfgA, w8CfgB] emptyPState (by decide) rfl).2.1 w8CfgB
      (by decide) rfl⟩

end NoiseMap
